import Mathlib

/-!
Verification development for the instadev-server repository.

The repository provisions an Appwrite database schema (`src/database.js`)
and syncs platform accounts into a "users" collection
(`src/src/collections/accountService.js`), exposed over HTTP
(`src/src/index.js`).  This file shallowly embeds those operations:
the remote database is an explicit state (`PDB`), remote calls become
state-passing functions, and fallible remote calls are driven by an
injected fault oracle.
-/

set_option autoImplicit false
set_option maxRecDepth 4000

namespace Instadev

/-! ## Data model of the remote database -/

/-- A typed attribute payload, mirroring the Appwrite attribute kinds the
repository creates: string attributes (`createStringAttribute`), email
attributes (`createEmailAttribute`) and relationship attributes
(`createRelationshipAttribute`). -/
inductive AttrSpec where
  | str (size : Nat) (required : Bool) (defaultVal : Option String) (isArray : Bool)
  | email (required : Bool)
  | rel (relatedCollectionId : String) (relationType : String) (twoWay : Bool)
      (twoWayKey : String) (onDelete : String)
deriving DecidableEq, Repr

/-- An attribute of a collection: a key plus its typed payload. -/
structure Attr where
  key : String
  spec : AttrSpec
deriving DecidableEq, Repr

/-- An index of a collection (`createIndex`). -/
structure Index where
  key : String
  type : String
  fields : List String
deriving DecidableEq, Repr

/-- A document of the "users" collection, with the exact fields built by
`fetchAndSaveAccounts` in `accountService.js` (the `userData` object). -/
structure Document where
  docId : String
  name : String
  username : String
  email : String
  imageUrl : String
  bio : Option String
  accountId : String
deriving DecidableEq, Repr

/-- A collection: `$id`, `name`, attributes, indexes and documents. -/
structure Coll where
  id : String
  name : String
  attrs : List Attr
  indexes : List Index
  docs : List Document
deriving DecidableEq, Repr

/-- The remote database state: the list of collections (in creation order,
as returned by `listCollections`) and a counter for `ID.unique()`. -/
structure PDB where
  colls : List Coll
  nextId : Nat
deriving DecidableEq, Repr

/-- A platform account as read by the sync service: `$id`, optional
`name`, `email` and the `prefs.avatar` / `prefs.bio` preference fields.
An absent field is `none`. -/
structure Account where
  id : String
  name : Option String
  email : String
  prefsAvatar : Option String
  prefsBio : Option String
deriving DecidableEq, Repr

/-! ## JavaScript-style helpers -/

/-- JS `v || dflt` on an optional string: the empty string is falsy. -/
def jsOr (v : Option String) (dflt : String) : String :=
  match v with
  | some s => if s == "" then dflt else s
  | none => dflt

/-- JS `v || null` on an optional string: the empty string becomes null. -/
def jsOrNull (v : Option String) : Option String :=
  match v with
  | some s => if s == "" then none else some s
  | none => none

/-- JS truthiness of an optional string (`if (acc.name)`). -/
def strTruthy (v : Option String) : Bool :=
  match v with
  | some s => s != ""
  | none => false

/-- The character class of the JS regular expression `\s`. -/
def jsWhitespace (c : Char) : Bool :=
  c == ' ' || c == '\t' || c == '\n' || c == '\r' || c == '\x0b' || c == '\x0c' ||
  c == '\u00A0' || c == '\u1680' || (0x2000 ≤ c.toNat && c.toNat ≤ 0x200A) ||
  c == '\u2028' || c == '\u2029' || c == '\u202F' || c == '\u205F' ||
  c == '\u3000' || c == '\uFEFF'

/-- Replace every run of JS whitespace by a single underscore
(`.replace(/\s+/g, "_")`).  The boolean records whether the previous
character was part of a whitespace run. -/
def replaceWsRuns : Bool → List Char → List Char
  | _, [] => []
  | prevWs, c :: cs =>
    if jsWhitespace c then
      (if prevWs then [] else ['_']) ++ replaceWsRuns true cs
    else
      c :: replaceWsRuns false cs

/-- JS `s.replace(/\s+/g, "_")` on a whole string. -/
def jsReplaceWs (s : String) : String :=
  String.mk (replaceWsRuns false s.data)

/-- JS `s.toLowerCase()`, modelled as ASCII case folding per character. -/
def jsToLower (s : String) : String :=
  String.mk (s.data.map Char.toLower)

/-- JS `s.substring(0, n)`: the first `n` characters. -/
def jsTake (s : String) (n : Nat) : String :=
  String.mk (s.data.take n)

/-! ## Profile construction (`userData` in `fetchAndSaveAccounts`) -/

/-- The `userData` object built by `fetchAndSaveAccounts` for an account,
given the document id chosen by `ID.unique()`.  ASCII case folding models
`toLowerCase`, and `String.take 8` models `substring(0, 8)`. -/
def userData (acc : Account) (docId : String) : Document :=
  { docId := docId
    name := jsOr acc.name "User"
    username :=
      if strTruthy acc.name then
        jsReplaceWs (jsToLower (acc.name.getD ""))
      else
        "user_" ++ jsTake acc.id 8
    email := acc.email
    imageUrl := jsOr acc.prefsAvatar
      ("https://api.dicebear.com/7.x/avataaars/svg?seed=" ++ acc.id)
    bio := jsOrNull acc.prefsBio
    accountId := acc.id }

/-! ## Pagination (`users.list` loop in `fetchAndSaveAccounts`) -/

/-- The call `users.list([Query.limit(limit), Query.offset(offset)])` against a
source holding the platform's accounts in a stable total order. -/
def usersList (source : List Account) (offset limit : Nat) : List Account :=
  (source.drop offset).take limit

/-- The `while (hasMoreUsers)` pagination loop: fetch pages of size 100
starting at `offset`, stopping after the first page shorter than 100.
Returns the fetched pages in order. -/
def fetchAllUsers (source : List Account) (offset : Nat) : List (List Account) :=
  if h : (usersList source offset 100).length < 100 then [usersList source offset 100]
  else usersList source offset 100 :: fetchAllUsers source (offset + 100)
termination_by source.length - offset
decreasing_by
  simp only [usersList, List.length_take, List.length_drop] at h
  omega

/-! ## Database lookups used by the sync service -/

/-- The lookup `collections.collections.find((c) => c.name === nm)`. -/
def findCollByName (colls : List Coll) (nm : String) : Option Coll :=
  colls.find? (fun c => c.name == nm)

/-- The documents of the collection with id `cid` (first match). -/
def docsOf (db : PDB) (cid : String) : List Document :=
  match db.colls.find? (fun c => c.id == cid) with
  | some c => c.docs
  | none => []

/-- Meaning of `createDocument`: append a document to the collection with id `cid`
and consume one unique id. -/
def addDocTo (db : PDB) (cid : String) (d : Document) : PDB :=
  { colls := db.colls.map (fun c => if c.id == cid then { c with docs := c.docs ++ [d] } else c)
    nextId := db.nextId + 1 }

/-! ## The per-account reconciliation loop -/

/-- Fault injection for the per-account remote calls: `failLookup a`
makes `listDocuments` throw for the account with `$id = a`, and
`failCreate a` makes `createDocument` throw for it. -/
structure SyncOracles where
  failLookup : String → Bool
  failCreate : String → Bool

/-- State of the `for (const acc of allUsers)` loop: the `savedAccounts`
array, the database, and the number of errors logged by the per-account
`catch`. -/
structure ProcState where
  saved : List Document
  db : PDB
  errorsLogged : Nat
deriving Repr

/-- One iteration of the per-account loop: look up an existing profile by
`accountId`; if one exists push `documents[0]`; otherwise create a new
document from `userData`.  Any throw is caught and logged. -/
def processOne (o : SyncOracles) (cid : String) (st : ProcState) (acc : Account) : ProcState :=
  if o.failLookup acc.id then
    { st with errorsLogged := st.errorsLogged + 1 }
  else
    match (docsOf st.db cid).filter (fun d => d.accountId == acc.id) with
    | d :: _ => { st with saved := st.saved ++ [d] }
    | [] =>
      if o.failCreate acc.id then
        { st with errorsLogged := st.errorsLogged + 1 }
      else
        let nd := userData acc ("d" ++ toString st.db.nextId)
        { saved := st.saved ++ [nd], db := addDocTo st.db cid nd,
          errorsLogged := st.errorsLogged }

/-- The whole per-account loop over the accumulated account list. -/
def processAccounts (o : SyncOracles) (cid : String) (db : PDB) (accs : List Account) : ProcState :=
  accs.foldl (processOne o cid) ⟨[], db, 0⟩

/-! ## `fetchAndSaveAccounts` -/

/-- Observable outcome of one call to `fetchAndSaveAccounts`: the value
returned or the error thrown, the final database state, the number of
pages fetched from the account API, and the number of per-account errors
logged. -/
structure SyncOutcome where
  result : Except String (List Document)
  db : PDB
  pagesFetched : Nat
  errorsLogged : Nat

/-- The function `fetchAndSaveAccounts(databaseId)` from `accountService.js`: resolve
the "users" collection by name (throwing if absent), page through the
account list, then reconcile each account.  The outer `catch` logs and
rethrows, so it is the identity on the outcome. -/
def fetchAndSaveAccounts (source : List Account) (o : SyncOracles) (db : PDB) : SyncOutcome :=
  match findCollByName db.colls "users" with
  | none =>
    { result := .error "Users collection not found", db := db,
      pagesFetched := 0, errorsLogged := 0 }
  | some usersCollection =>
    let pages := fetchAllUsers source 0
    let allUsers := pages.flatten
    let st := processAccounts o usersCollection.id db allUsers
    { result := .ok st.saved, db := st.db,
      pagesFetched := pages.length, errorsLogged := st.errorsLogged }

/-! ## HTTP front door (`GET /accounts/sync` in `src/src/index.js`) -/

/-- The JSON envelope and status code produced by the endpoint handler. -/
structure HttpResponse where
  status : Nat
  success : Bool
  message : String
  data : Option (List Document)
  error : Option String
deriving DecidableEq, Repr

/-- The `GET /accounts/sync` handler body: on success `res.json` (status
200) with `{success, message, data}`; on a throw `res.status(500).json`
with `{success: false, message, error}`. -/
def syncHandler (r : Except String (List Document)) : HttpResponse :=
  match r with
  | .ok savedAccounts =>
    { status := 200, success := true
      message := "Successfully processed " ++ toString savedAccounts.length ++ " accounts"
      data := some savedAccounts, error := none }
  | .error e =>
    { status := 500, success := false, message := "Failed to sync accounts"
      data := none, error := some e }

/-- The endpoint end to end: run the sync service, then produce the
response. -/
def accountsSyncEndpoint (source : List Account) (o : SyncOracles) (db : PDB) :
    HttpResponse × PDB :=
  let out := fetchAndSaveAccounts source o db
  (syncHandler out.result, out.db)

/-! ## The Schema Provisioner (`src/database.js`)

Remote calls during provisioning may fail; failure is injected by a
fault oracle indexed by a running call counter.  A computation is a
function from the counter and the database state to a result (value or
thrown error) together with the updated counter and state; as in the
source, state changes made before a throw are retained. -/

/-- A provisioning computation: counter and state in, possibly-thrown
result plus updated counter and state out. -/
def M (α : Type) : Type := Nat → PDB → Except String α × Nat × PDB

def M.pure {α : Type} (a : α) : M α := fun n db => (.ok a, n, db)

def M.bind {α β : Type} (m : M α) (f : α → M β) : M β := fun n db =>
  match m n db with
  | (.ok a, n', db') => f a n' db'
  | (.error e, n', db') => (.error e, n', db')

instance : Monad M where
  pure := M.pure
  bind := M.bind

/-- A `try { ... } catch (error) { console.error(...) }` block that
swallows the error: the computation always returns normally. -/
def M.catchLog (m : M Unit) : M Unit := fun n db =>
  match m n db with
  | (.ok a, n', db') => (.ok a, n', db')
  | (.error _, n', db') => (.ok (), n', db')

/-- One remote SDK call: consume a tick of the call counter; throw if the
fault oracle says so, otherwise apply the call's meaning to the state. -/
def remoteOp {α : Type} (fault : Nat → Bool) (f : PDB → Except String (α × PDB)) : M α :=
  fun n db =>
    if fault n then (.error "remote call failed", n + 1, db)
    else
      match f db with
      | .ok (a, db') => (.ok a, n + 1, db')
      | .error e => (.error e, n + 1, db)

/-- The call `databases.listCollections(databaseId)`. -/
def listCollections (fault : Nat → Bool) : M (List Coll) :=
  remoteOp fault (fun db => .ok (db.colls, db))

/-- Append a freshly created collection. -/
def appendColl (db : PDB) (c : Coll) : PDB :=
  { colls := db.colls ++ [c], nextId := db.nextId + 1 }

/-- The collection record minted by `createCollection`: a fresh id from
`ID.unique()`, the requested name, and empty attribute, index and
document sets. -/
def freshColl (db : PDB) (nm : String) : Coll :=
  { id := "c" ++ toString db.nextId, name := nm, attrs := [], indexes := [], docs := [] }

/-- The call `databases.createCollection(databaseId, ID.unique(), nm, [])`. -/
def createCollection (fault : Nat → Bool) (nm : String) : M Coll :=
  remoteOp fault (fun db => .ok (freshColl db nm, appendColl db (freshColl db nm)))

/-- Update every collection whose id is `cid` (ids are unique on the real
platform; updating all matches keeps duplicates consistent). -/
def modColl (db : PDB) (cid : String) (f : Coll → Coll) : PDB :=
  { db with colls := db.colls.map (fun c => if c.id == cid then f c else c) }

/-- Append an attribute to the collection with id `cid`. -/
def addAttr (db : PDB) (cid : String) (a : Attr) : PDB :=
  modColl db cid (fun c => { c with attrs := c.attrs ++ [a] })

/-- Append an index to the collection with id `cid`. -/
def addIndex (db : PDB) (cid : String) (ix : Index) : PDB :=
  modColl db cid (fun c => { c with indexes := c.indexes ++ [ix] })

/-- Does a collection with id `cid` exist? -/
def collExists (db : PDB) (cid : String) : Bool :=
  db.colls.any (fun c => c.id == cid)

/-- The call `databases.createStringAttribute(databaseId, cid, key, size, required,
default?, isArray?)`.  Fails when the target collection is missing. -/
def createStringAttribute (fault : Nat → Bool) (cid akey : String) (size : Nat)
    (required : Bool) (dflt : Option String) (isArray : Bool) : M Unit :=
  remoteOp fault (fun db =>
    if collExists db cid then
      .ok ((), addAttr db cid { key := akey, spec := .str size required dflt isArray })
    else .error "collection not found")

/-- The call `databases.createEmailAttribute(databaseId, cid, key, required)`. -/
def createEmailAttribute (fault : Nat → Bool) (cid akey : String) (required : Bool) : M Unit :=
  remoteOp fault (fun db =>
    if collExists db cid then
      .ok ((), addAttr db cid { key := akey, spec := .email required })
    else .error "collection not found")

/-- The call `databases.createIndex(databaseId, cid, key, type, fields)`. -/
def createIndex (fault : Nat → Bool) (cid ikey itype : String) (fields : List String) : M Unit :=
  remoteOp fault (fun db =>
    if collExists db cid then
      .ok ((), addIndex db cid { key := ikey, type := itype, fields := fields })
    else .error "collection not found")

/-- The call `databases.listAttributes(databaseId, cid)`. -/
def listAttributes (fault : Nat → Bool) (cid : String) : M (List Attr) :=
  remoteOp fault (fun db =>
    match db.colls.find? (fun c => c.id == cid) with
    | some c => .ok (c.attrs, db)
    | none => .error "collection not found")

/-- The call `databases.createRelationshipAttribute(databaseId, cid, relatedCid,
type, twoWay, key, twoWayKey, onDelete)`: add the relationship attribute
to the owning collection and (two-way) the inverse attribute to the
related collection. -/
def createRelationshipAttribute (fault : Nat → Bool) (cid relatedCid : String)
    (relationType : String) (twoWay : Bool) (akey twoWayKey onDelete : String) : M Unit :=
  remoteOp fault (fun db =>
    if collExists db cid && collExists db relatedCid then
      let db1 := addAttr db cid
        { key := akey, spec := .rel relatedCid relationType twoWay twoWayKey onDelete }
      let db2 :=
        if twoWay then
          addAttr db1 relatedCid
            { key := twoWayKey, spec := .rel cid relationType twoWay akey onDelete }
        else db1
      .ok ((), db2)
    else .error "collection not found")

/-- The function `createUsersCollection(databaseId)`: skip if a collection named
"users" is listed, otherwise create it with its attributes and indexes.
The settling `setTimeout` is a pure no-op here; the `Promise.all`
batches run in program order.  The `catch { log; throw }` wrapper is the
identity on a thrown error. -/
def createUsersCollection (fault : Nat → Bool) : M Coll := do
  let collections ← listCollections fault
  match findCollByName collections "users" with
  | some usersCollection => pure usersCollection
  | none => do
    let collection ← createCollection fault "users"
    createStringAttribute fault collection.id "name" 255 true none false
    createStringAttribute fault collection.id "username" 100 true none false
    createEmailAttribute fault collection.id "email" true
    createStringAttribute fault collection.id "imageUrl" 1024 true none false
    createStringAttribute fault collection.id "imageId" 255 false none false
    createStringAttribute fault collection.id "bio" 1024 false none false
    createStringAttribute fault collection.id "accountId" 255 true none false
    createIndex fault collection.id "email_index" "key" ["email"]
    createIndex fault collection.id "username_index" "key" ["username"]
    createIndex fault collection.id "account_index" "key" ["accountId"]
    pure collection

/-- The function `createPostsCollection(databaseId)`. -/
def createPostsCollection (fault : Nat → Bool) : M Coll := do
  let collections ← listCollections fault
  match findCollByName collections "posts" with
  | some postsCollection => pure postsCollection
  | none => do
    let collection ← createCollection fault "posts"
    createStringAttribute fault collection.id "content" 2048 true none false
    createStringAttribute fault collection.id "tags" 255 false none true
    createStringAttribute fault collection.id "imageUrl" 1024 true none false
    createStringAttribute fault collection.id "imageId" 255 true none false
    createStringAttribute fault collection.id "location" 255 false none false
    createIndex fault collection.id "tags_index" "key" ["tags"]
    pure collection

/-- The function `createSavesCollection(databaseId)`: skip if present, else create the
bare collection (its index creation is commented out in the source). -/
def createSavesCollection (fault : Nat → Bool) : M Coll := do
  let collections ← listCollections fault
  match findCollByName collections "saves" with
  | some savesCollection => pure savesCollection
  | none => createCollection fault "saves"

/-- The function `createLikesCollection(databaseId)`. -/
def createLikesCollection (fault : Nat → Bool) : M Coll := do
  let collections ← listCollections fault
  match findCollByName collections "likes" with
  | some likesCollection => pure likesCollection
  | none => createCollection fault "likes"

/-- The users-posts block of `createRelationships`: its own
`try { listAttributes; check "posts"; createRelationshipAttribute } catch`. -/
def relUsersPostsBlock (fault : Nat → Bool) (uc pc : Coll) : M Unit :=
  M.catchLog (do
    let userAttributes ← listAttributes fault uc.id
    if userAttributes.any (fun a => a.key == "posts") then pure ()
    else
      createRelationshipAttribute fault uc.id pc.id
        "manyToOne" true "posts" "creator" "setNull")

/-- The saves and likes blocks of `createRelationships` share one shape:
one `listAttributes` on the owning collection `oc`, then two checked
relationship creations towards `tgt1` and `tgt2` (both checks read the
same attribute list), all inside one `try/catch`. -/
def relPairBlock (fault : Nat → Bool) (oc tgt1 tgt2 : Coll)
    (k1 tk1 k2 tk2 : String) : M Unit :=
  M.catchLog (do
    let ownAttributes ← listAttributes fault oc.id
    (if ownAttributes.any (fun a => a.key == k1) then pure ()
     else
       createRelationshipAttribute fault oc.id tgt1.id
         "manyToOne" true k1 tk1 "setNull")
    (if ownAttributes.any (fun a => a.key == k2) then pure ()
     else
       createRelationshipAttribute fault oc.id tgt2.id
         "manyToOne" true k2 tk2 "setNull"))

/-- The function `createRelationships(databaseId)`: find the four collections; skip
everything if users or posts is missing; otherwise ensure each of the
five relationship links, checking the owning collection's attribute keys
first.  Every error is caught and logged (outer catch and one catch per
block), so the function always returns normally. -/
def createRelationships (fault : Nat → Bool) : M Unit :=
  M.catchLog (do
    let collections ← listCollections fault
    let usersCollection := findCollByName collections "users"
    let postsCollection := findCollByName collections "posts"
    let savesCollection := findCollByName collections "saves"
    let likesCollection := findCollByName collections "likes"
    match usersCollection, postsCollection with
    | some uc, some pc => do
      relUsersPostsBlock fault uc pc
      (match savesCollection with
       | some sc => relPairBlock fault sc uc pc "user" "saves" "post" "savedBy"
       | none => pure ())
      (match likesCollection with
       | some lc => relPairBlock fault lc uc pc "user" "likes" "post" "likedBy"
       | none => pure ())
    | _, _ => pure ())

/-- The function `initializeDatabase(databaseId)`: create the four collections, then
the relationships.  Its `catch { log; throw }` is the identity on a
thrown error. -/
def initializeDatabase (fault : Nat → Bool) : M Unit := do
  let _ ← createUsersCollection fault
  let _ ← createPostsCollection fault
  let _ ← createSavesCollection fault
  let _ ← createLikesCollection fault
  createRelationships fault

/-- The four collection-creation steps of `initializeDatabase`, without
the relationship phase (used to state which phase can fail). -/
def createAllCollections (fault : Nat → Bool) : M Unit := do
  let _ ← createUsersCollection fault
  let _ ← createPostsCollection fault
  let _ ← createSavesCollection fault
  let _ ← createLikesCollection fault
  pure ()

/-- The always-successful oracle: no remote call fails. -/
def noFault : Nat → Bool := fun _ => false

/-- One fault-free provisioning run, viewed as a database transformer. -/
def provision (db : PDB) : PDB :=
  (initializeDatabase noFault 0 db).2.2

/-! ## Auxiliary definitions used by the theorems -/

/-- The attribute list of the collection with id `cid` (first match),
exactly what `listAttributes` returns. -/
def attrsOf (db : PDB) (cid : String) : List Attr :=
  match db.colls.find? (fun c => c.id == cid) with
  | some c => c.attrs
  | none => []

/-- Does the collection with id `cid` have an attribute with key `k`? -/
def hasAttrKey (db : PDB) (cid k : String) : Bool :=
  (attrsOf db cid).any (fun a => a.key == k)

/-- Number of profile documents with `accountId = a` in collection `cid`. -/
def profilesFor (db : PDB) (cid a : String) : Nat :=
  ((docsOf db cid).filter (fun d => d.accountId == a)).length

/-- Sync oracle under which no per-account remote call fails. -/
def noSyncFail : SyncOracles := ⟨fun _ => false, fun _ => false⟩

/-- A batch of `k` distinct synthetic accounts without names. -/
def sampleAccounts (k : Nat) : List Account :=
  (List.range k).map (fun i =>
    { id := "acc" ++ toString i, name := none, email := "e" ++ toString i,
      prefsAvatar := none, prefsBio := none })

/-! ## Theorems for the explicit claims on the sync service -/

/-- C3 (amended): username derivation in profile construction.  For any
account whose name is "Jane Doe" the derived username is "jane_doe"
(also when the name carries a multi-space run), for any account with an
absent name the username is "user_" followed by the first 8 characters
of the identifier, and identifier "abcdefgh1234" yields "user_abcdefgh"
(not the spec's 7-character "user_abcdefg"). -/
theorem C3_username_derivation :
    (∀ (i e : String) (av b : Option String) (did : String),
       (userData ⟨i, some "Jane Doe", e, av, b⟩ did).username = "jane_doe") ∧
    (∀ (i e : String) (av b : Option String) (did : String),
       (userData ⟨i, some "Jane  Doe", e, av, b⟩ did).username = "jane_doe") ∧
    (∀ (i e : String) (av b : Option String) (did : String),
       (userData ⟨i, none, e, av, b⟩ did).username = "user_" ++ jsTake i 8) ∧
    (∀ (e : String) (av b : Option String) (did : String),
       (userData ⟨"abcdefgh1234", none, e, av, b⟩ did).username = "user_abcdefgh") :=
  ⟨fun _ _ _ _ _ => rfl, fun _ _ _ _ _ => rfl, fun _ _ _ _ _ => rfl,
   fun _ _ _ _ => rfl⟩

/-- C3 counterexample: the spec's example output "user_abcdefg" is not
what the code produces for identifier "abcdefgh1234" with an absent
name; `substring(0, 8)` keeps 8 characters, giving "user_abcdefgh". -/
theorem C3_username_counterexample :
    (userData ⟨"abcdefgh1234", none, "e@x", none, none⟩ "d0").username =
      "user_abcdefgh" ∧
    (userData ⟨"abcdefgh1234", none, "e@x", none, none⟩ "d0").username ≠
      "user_abcdefg" := by
  constructor <;> decide

/-- C10: an account whose name is the empty string is treated exactly
like an account with no name: identical profile document, name "User",
username "user_" plus the first 8 characters of the identifier. -/
theorem C10_empty_name_is_absent :
    ∀ (i e : String) (av b : Option String) (did : String),
      userData ⟨i, some "", e, av, b⟩ did = userData ⟨i, none, e, av, b⟩ did ∧
      (userData ⟨i, some "", e, av, b⟩ did).name = "User" ∧
      (userData ⟨i, some "", e, av, b⟩ did).username = "user_" ++ jsTake i 8 :=
  fun _ _ _ _ _ => ⟨rfl, rfl, rfl⟩

/-- C7: the `GET /accounts/sync` endpoint produces exactly one of two
responses: on a successful sync, status 200 with `success = true`, the
processed-count message and the profile list as `data` (no `error`
field); on a thrown sync, status 500 with `success = false`, the failure
message and the error string (no `data` field). -/
theorem C7_endpoint_shapes (source : List Account) (o : SyncOracles) (db : PDB) :
    (∃ ds, (fetchAndSaveAccounts source o db).result = .ok ds ∧
       (accountsSyncEndpoint source o db).1 =
         ⟨200, true, "Successfully processed " ++ toString ds.length ++ " accounts",
          some ds, none⟩) ∨
    (∃ e, (fetchAndSaveAccounts source o db).result = .error e ∧
       (accountsSyncEndpoint source o db).1 =
         ⟨500, false, "Failed to sync accounts", none, some e⟩) := by
  unfold accountsSyncEndpoint
  cases h : (fetchAndSaveAccounts source o db).result with
  | ok ds => exact .inl ⟨ds, rfl, by simp [syncHandler, h]⟩
  | error e => exact .inr ⟨e, rfl, by simp [syncHandler, h]⟩

/-- C6: when no collection named "users" exists, `fetchAndSaveAccounts`
throws "Users collection not found" before fetching any account page or
writing anything (the database is unchanged and no per-account error is
logged), and the HTTP endpoint turns this into a 500 response. -/
theorem C6_schema_not_ready (source : List Account) (o : SyncOracles) (db : PDB)
    (h : ∀ c ∈ db.colls, c.name ≠ "users") :
    (fetchAndSaveAccounts source o db).result = .error "Users collection not found" ∧
    (fetchAndSaveAccounts source o db).db = db ∧
    (fetchAndSaveAccounts source o db).pagesFetched = 0 ∧
    (fetchAndSaveAccounts source o db).errorsLogged = 0 ∧
    (accountsSyncEndpoint source o db).1.status = 500 := by
  have hfind : findCollByName db.colls "users" = none := by
    rw [findCollByName, List.find?_eq_none]
    intro c hc
    simpa using h c hc
  refine ⟨?_, ?_, ?_, ?_, ?_⟩ <;>
    simp [fetchAndSaveAccounts, accountsSyncEndpoint, syncHandler, hfind]

/-- The pagination loop accumulates, in order, exactly the account
source: the concatenation of all fetched pages is the source from the
starting offset on. -/
theorem fetchAllUsers_flatten (source : List Account) (offset : Nat) :
    (fetchAllUsers source offset).flatten = source.drop offset := by
  induction offset using fetchAllUsers.induct source with
  | case1 offset h =>
    rw [fetchAllUsers, dif_pos h]
    simp only [usersList, List.length_take, List.length_drop] at h
    simp only [List.flatten, List.append_nil, usersList]
    exact List.take_of_length_le (by simp; omega)
  | case2 offset h ih =>
    have h3 : (List.drop offset source).drop 100 = source.drop (offset + 100) := by
      rw [List.drop_drop, Nat.add_comm]
    rw [fetchAllUsers, dif_neg h]
    simp only [List.flatten_cons, ih, usersList]
    rw [← h3, List.take_append_drop]

/-- C4: for an account source holding exactly 250 accounts, the
pagination loop issues 3 page fetches returning 100, 100 and 50 records,
and the accumulated list is exactly the 250 source accounts in order. -/
theorem C4_pagination (source : List Account) (h : source.length = 250) :
    (fetchAllUsers source 0).map List.length = [100, 100, 50] ∧
    (fetchAllUsers source 0).length = 3 ∧
    (fetchAllUsers source 0).flatten = source := by
  have h0 : (usersList source 0 100).length = 100 := by
    simp [usersList, h]
  have h1 : (usersList source (0 + 100) 100).length = 100 := by
    simp [usersList, h]
  have h2 : (usersList source (0 + 100 + 100) 100).length = 50 := by
    simp [usersList, h]
  have e2 : fetchAllUsers source (0 + 100 + 100) = [usersList source (0 + 100 + 100) 100] := by
    rw [fetchAllUsers, dif_pos (by rw [h2]; omega)]
  have e1 : fetchAllUsers source (0 + 100) =
      usersList source (0 + 100) 100 :: fetchAllUsers source (0 + 100 + 100) := by
    rw [fetchAllUsers, dif_neg (by rw [h1]; omega)]
  have e0 : fetchAllUsers source 0 = usersList source 0 100 :: fetchAllUsers source (0 + 100) := by
    rw [fetchAllUsers, dif_neg (by rw [h0]; omega)]
  refine ⟨?_, ?_, ?_⟩
  · rw [e0, e1, e2]
    simp [h0, h1, h2]
  · rw [e0, e1, e2]
    rfl
  · rw [fetchAllUsers_flatten]
    rfl

/-- Witness for C4 at a concrete 250-account source. -/
theorem C4_pagination_witness :
    (sampleAccounts 250).length = 250 ∧
    ((fetchAllUsers (sampleAccounts 250) 0).map List.length = [100, 100, 50] ∧
     (fetchAllUsers (sampleAccounts 250) 0).length = 3 ∧
     (fetchAllUsers (sampleAccounts 250) 0).flatten = sampleAccounts 250) :=
  ⟨by simp [sampleAccounts], C4_pagination (sampleAccounts 250) (by simp [sampleAccounts])⟩

/-- Witness for C6 at a concrete empty database. -/
theorem C6_schema_not_ready_witness :
    (∀ c ∈ (⟨[], 0⟩ : PDB).colls, c.name ≠ "users") ∧
    ((fetchAndSaveAccounts (sampleAccounts 1) noSyncFail ⟨[], 0⟩).result =
        .error "Users collection not found" ∧
     (fetchAndSaveAccounts (sampleAccounts 1) noSyncFail ⟨[], 0⟩).db = ⟨[], 0⟩ ∧
     (fetchAndSaveAccounts (sampleAccounts 1) noSyncFail ⟨[], 0⟩).pagesFetched = 0 ∧
     (fetchAndSaveAccounts (sampleAccounts 1) noSyncFail ⟨[], 0⟩).errorsLogged = 0 ∧
     (accountsSyncEndpoint (sampleAccounts 1) noSyncFail ⟨[], 0⟩).1.status = 500) :=
  ⟨by simp, C6_schema_not_ready (sampleAccounts 1) noSyncFail ⟨[], 0⟩ (by simp)⟩

/-! ## Lemmas about document writes during sync -/

theorem userData_accountId (acc : Account) (did : String) :
    (userData acc did).accountId = acc.id := rfl

/-- Lookup `find?` by id commutes with an id-preserving collection map. -/
theorem find?_map_of_id (l : List Coll) (g : Coll → Coll)
    (hg : ∀ c, (g c).id = c.id) (cid : String) :
    (l.map g).find? (fun c => c.id == cid) = (l.find? (fun c => c.id == cid)).map g := by
  rw [List.find?_map]
  have hfun : ((fun c => c.id == cid) ∘ g) = (fun c : Coll => c.id == cid) := by
    funext c
    simp [Function.comp, hg]
  rw [hfun]

theorem collExists_eq_isSome (db : PDB) (cid : String) :
    collExists db cid = (db.colls.find? (fun c => c.id == cid)).isSome := by
  cases hf : db.colls.find? (fun c => c.id == cid) with
  | none =>
    rw [List.find?_eq_none] at hf
    simp only [collExists, Option.isSome_none]
    rw [List.any_eq_false]
    intro c hc
    simpa using hf c hc
  | some c =>
    simp only [collExists, Option.isSome_some]
    rw [List.any_eq_true]
    refine ⟨c, List.mem_of_find?_eq_some hf, ?_⟩
    have hp := List.find?_some hf
    simpa using hp

/-- Effect of `createDocument` on the document list of any collection. -/
theorem docsOf_addDocTo (db : PDB) (cid cid' : String) (d : Document) :
    docsOf (addDocTo db cid d) cid' =
      docsOf db cid' ++ (if (cid' == cid) && collExists db cid' then [d] else []) := by
  have hg : ∀ c : Coll,
      ((fun c => if c.id == cid then { c with docs := c.docs ++ [d] } else c) c).id = c.id := by
    intro c
    dsimp only
    split <;> rfl
  rw [docsOf, docsOf, addDocTo]
  simp only
  rw [find?_map_of_id _ _ hg]
  rw [collExists_eq_isSome]
  cases hf : db.colls.find? (fun c => c.id == cid') with
  | none => simp
  | some m =>
    have hm : m.id = cid' := by
      have := List.find?_some hf
      simpa using this
    simp only [Option.map_some', Option.isSome_some, Bool.and_true]
    by_cases hcc : (m.id == cid) = true
    · have hcc' : (cid' == cid) = true := by
        rw [← hm]
        exact hcc
      simp [hcc, hcc']
    · have hne : (cid' == cid) = false := by
        rw [← hm]
        simpa using hcc
      simp only [Bool.not_eq_true] at hcc
      simp [hcc, hne]

theorem profilesFor_addDocTo (db : PDB) (cid cid' : String) (d : Document) (a : String) :
    profilesFor (addDocTo db cid d) cid' a =
      profilesFor db cid' a +
        (if (cid' == cid) && collExists db cid' && (d.accountId == a) then 1 else 0) := by
  rw [profilesFor, profilesFor, docsOf_addDocTo, List.filter_append, List.length_append]
  congr 1
  by_cases h1 : ((cid' == cid) && collExists db cid') = true
  · rw [if_pos h1]
    by_cases h2 : (d.accountId == a) = true
    · simp [h1, h2]
    · simp only [Bool.not_eq_true] at h2
      simp [h1, h2]
  · simp only [Bool.not_eq_true] at h1
    simp [h1]

/-- One loop iteration never changes the number of profiles for an
account id that already has at least one profile. -/
theorem processOne_profilesFor_of_exists (o : SyncOracles) (cid : String) (st : ProcState)
    (acc : Account) (a : String) (h : 1 ≤ profilesFor st.db cid a) :
    profilesFor (processOne o cid st acc).db cid a = profilesFor st.db cid a := by
  rw [processOne]
  split
  · rfl
  · split
    · rfl
    · split
      · rfl
      · rename_i hd _
        rw [profilesFor_addDocTo]
        by_cases hacc : acc.id = a
        · exfalso
          have h0 : profilesFor st.db cid a = 0 := by
            rw [profilesFor, ← hacc, hd]
            rfl
          omega
        · have : ((userData acc ("d" ++ toString st.db.nextId)).accountId == a) = false := by
            rw [userData_accountId]
            exact beq_eq_false_iff_ne.mpr hacc
          simp [this]

/-- One loop iteration keeps the profile count for any account id at
most 1. -/
theorem processOne_profilesFor_le (o : SyncOracles) (cid : String) (st : ProcState)
    (acc : Account) (a : String) (h : profilesFor st.db cid a ≤ 1) :
    profilesFor (processOne o cid st acc).db cid a ≤ 1 := by
  rw [processOne]
  split
  · exact h
  · split
    · exact h
    · split
      · exact h
      · rename_i hd _
        rw [profilesFor_addDocTo]
        by_cases hacc : acc.id = a
        · have h0 : profilesFor st.db cid a = 0 := by
            rw [profilesFor, ← hacc, hd]
            rfl
          split <;> omega
        · have : ((userData acc ("d" ++ toString st.db.nextId)).accountId == a) = false := by
            rw [userData_accountId]
            exact beq_eq_false_iff_ne.mpr hacc
          simp [this, h]

theorem foldl_profilesFor_of_exists (o : SyncOracles) (cid a : String) :
    ∀ (accs : List Account) (st : ProcState), 1 ≤ profilesFor st.db cid a →
      profilesFor (accs.foldl (processOne o cid) st).db cid a = profilesFor st.db cid a := by
  intro accs
  induction accs with
  | nil => intro st _; rfl
  | cons acc rest ih =>
    intro st h
    rw [List.foldl_cons]
    have h1 := processOne_profilesFor_of_exists o cid st acc a h
    rw [ih _ (by rw [h1]; exact h), h1]

theorem foldl_profilesFor_le (o : SyncOracles) (cid a : String) :
    ∀ (accs : List Account) (st : ProcState), profilesFor st.db cid a ≤ 1 →
      profilesFor (accs.foldl (processOne o cid) st).db cid a ≤ 1 := by
  intro accs
  induction accs with
  | nil => intro st h; exact h
  | cons acc rest ih =>
    intro st h
    rw [List.foldl_cons]
    exact ih _ (processOne_profilesFor_le o cid st acc a h)

/-- C2: for every database state whose "users" collection already holds
a profile for account id `a`, a sync run leaves the number of profiles
for `a` unchanged (no second profile is created), and a profile count
that is at most 1 stays at most 1 across any number of runs. -/
theorem C2_no_duplicate_profiles (source : List Account) (o : SyncOracles) (db : PDB)
    (a : String) (uc : Coll) (hu : findCollByName db.colls "users" = some uc) :
    (1 ≤ profilesFor db uc.id a →
       profilesFor (fetchAndSaveAccounts source o db).db uc.id a = profilesFor db uc.id a) ∧
    (profilesFor db uc.id a ≤ 1 →
       profilesFor (fetchAndSaveAccounts source o db).db uc.id a ≤ 1) := by
  rw [fetchAndSaveAccounts, hu]
  constructor
  · intro h
    exact foldl_profilesFor_of_exists o uc.id a _ ⟨[], db, 0⟩ h
  · intro h
    exact foldl_profilesFor_le o uc.id a _ ⟨[], db, 0⟩ h

/-- Concrete data for the C2 witness: one stored profile for "a0". -/
def wDoc : Document := ⟨"d0", "User", "user_a0", "e@x", "img", none, "a0"⟩

def wColl : Coll := ⟨"u", "users", [], [], [wDoc]⟩

def wDB : PDB := ⟨[wColl], 1⟩

def wSource : List Account := [⟨"a0", none, "e@x", none, none⟩]

/-- Witness for C2: a database with one profile for "a0" and a source
containing the same account. -/
theorem C2_no_duplicate_profiles_witness :
    (findCollByName wDB.colls "users" = some wColl ∧
     1 ≤ profilesFor wDB wColl.id "a0" ∧ profilesFor wDB wColl.id "a0" ≤ 1) ∧
    (profilesFor (fetchAndSaveAccounts wSource noSyncFail wDB).db wColl.id "a0" =
        profilesFor wDB wColl.id "a0" ∧
     profilesFor (fetchAndSaveAccounts wSource noSyncFail wDB).db wColl.id "a0" ≤ 1) :=
  ⟨⟨rfl, by decide, by decide⟩,
   (C2_no_duplicate_profiles wSource noSyncFail wDB "a0" wColl rfl).1 (by decide),
   (C2_no_duplicate_profiles wSource noSyncFail wDB "a0" wColl rfl).2 (by decide)⟩

/-! ## Failure isolation and the frame condition of the sync loop -/

/-- Each loop iteration contributes exactly one outcome: either one
saved profile or one logged error. -/
theorem processOne_saved_errors (o : SyncOracles) (cid : String) (st : ProcState)
    (acc : Account) :
    (processOne o cid st acc).saved.length + (processOne o cid st acc).errorsLogged
      = st.saved.length + st.errorsLogged + 1 := by
  rw [processOne]
  split
  · simp only []
    omega
  · split
    · simp only [List.length_append, List.length_cons, List.length_nil]
      omega
    · split
      · simp only []
        omega
      · simp only [List.length_append, List.length_cons, List.length_nil]
        omega

theorem foldl_saved_errors (o : SyncOracles) (cid : String) :
    ∀ (accs : List Account) (st : ProcState),
      (accs.foldl (processOne o cid) st).saved.length
        + (accs.foldl (processOne o cid) st).errorsLogged
      = st.saved.length + st.errorsLogged + accs.length := by
  intro accs
  induction accs with
  | nil => intro st; simp
  | cons acc rest ih =>
    intro st
    rw [List.foldl_cons, ih]
    have := processOne_saved_errors o cid st acc
    simp only [List.length_cons]
    omega

/-- C5: per-account failure isolation.  In general each account of a
batch contributes exactly one saved profile or one logged error, so the
batch is never aborted; concretely, for a batch of 50 fresh accounts in
which only account number 37 (id "acc36") throws during profile
creation, the loop returns 49 profiles and logs exactly one error. -/
theorem C5_failure_isolation :
    (∀ (o : SyncOracles) (cid : String) (db : PDB) (accs : List Account),
       (processAccounts o cid db accs).saved.length
         + (processAccounts o cid db accs).errorsLogged = accs.length) ∧
    ((processAccounts ⟨fun _ => false, fun s => s == "acc36"⟩ "u"
        ⟨[⟨"u", "users", [], [], []⟩], 0⟩ (sampleAccounts 50)).saved.length = 49 ∧
     (processAccounts ⟨fun _ => false, fun s => s == "acc36"⟩ "u"
        ⟨[⟨"u", "users", [], [], []⟩], 0⟩ (sampleAccounts 50)).errorsLogged = 1) := by
  refine ⟨?_, ?_, ?_⟩
  · intro o cid db accs
    have h := foldl_saved_errors o cid accs ⟨[], db, 0⟩
    simpa [processAccounts] using h
  · decide
  · decide

/-- One loop iteration only ever appends documents: the stored document
list of every collection is preserved as a prefix. -/
theorem processOne_docs_ext (o : SyncOracles) (cid : String) (st : ProcState)
    (acc : Account) (cid' : String) :
    ∃ ext, docsOf (processOne o cid st acc).db cid' = docsOf st.db cid' ++ ext := by
  rw [processOne]
  split
  · exact ⟨[], by simp⟩
  · split
    · exact ⟨[], by simp⟩
    · split
      · exact ⟨[], by simp⟩
      · exact ⟨_, docsOf_addDocTo st.db cid cid' _⟩

theorem foldl_docs_ext (o : SyncOracles) (cid : String) :
    ∀ (accs : List Account) (st : ProcState) (cid' : String),
      ∃ ext, docsOf (accs.foldl (processOne o cid) st).db cid' = docsOf st.db cid' ++ ext := by
  intro accs
  induction accs with
  | nil => intro st cid'; exact ⟨[], by simp⟩
  | cons acc rest ih =>
    intro st cid'
    rw [List.foldl_cons]
    obtain ⟨e1, h1⟩ := processOne_docs_ext o cid st acc cid'
    obtain ⟨e2, h2⟩ := ih (processOne o cid st acc) cid'
    exact ⟨e1 ++ e2, by rw [h2, h1, List.append_assoc]⟩

/-- C8: profiles are never updated after creation.  A sync run only ever
appends to the stored document list of any collection (every document
present before the run is still there, unchanged, afterwards), and for
an account whose `accountId` already has a stored profile the run
returns exactly that stored document and leaves the database untouched
even when the account's name, email and preferences differ from it. -/
theorem C8_no_profile_update :
    (∀ (source : List Account) (o : SyncOracles) (db : PDB) (cid : String),
       ∃ ext, docsOf (fetchAndSaveAccounts source o db).db cid = docsOf db cid ++ ext) ∧
    (∀ (stored : Document) (nm : Option String) (em : String) (av b : Option String),
       (processAccounts noSyncFail "u" ⟨[⟨"u", "users", [], [], [stored]⟩], 0⟩
          [⟨stored.accountId, nm, em, av, b⟩]).saved = [stored] ∧
       (processAccounts noSyncFail "u" ⟨[⟨"u", "users", [], [], [stored]⟩], 0⟩
          [⟨stored.accountId, nm, em, av, b⟩]).db = ⟨[⟨"u", "users", [], [], [stored]⟩], 0⟩) := by
  constructor
  · intro source o db cid
    rw [fetchAndSaveAccounts]
    cases hu : findCollByName db.colls "users" with
    | none => exact ⟨[], by simp⟩
    | some uc => exact foldl_docs_ext o uc.id _ ⟨[], db, 0⟩ cid
  · intro stored nm em av b
    constructor <;>
      simp [processAccounts, processOne, noSyncFail, docsOf]

/-! ## Lemmas about the provisioner computation -/

theorem M.bind_eval_ok {α β : Type} (m : M α) (f : α → M β) (n : Nat) (db : PDB)
    (a : α) (n' : Nat) (db' : PDB) (hm : m n db = (.ok a, n', db')) :
    (m >>= f) n db = f a n' db' := by
  show M.bind m f n db = f a n' db'
  rw [M.bind, hm]

theorem M.bind_fst_error {α β : Type} (m : M α) (f : α → M β) (n : Nat) (db : PDB)
    (e : String) (hm : (m n db).1 = .error e) : ((m >>= f) n db).1 = .error e := by
  show (M.bind m f n db).1 = .error e
  rw [M.bind]
  rcases h : m n db with ⟨r, n', db'⟩
  rw [h] at hm
  cases r with
  | ok a => exact absurd hm (by simp)
  | error e' => simpa using hm

/-- A caught-and-logged block always returns normally. -/
theorem catchLog_always_ok (m : M Unit) (n : Nat) (db : PDB) :
    ∃ n' db', M.catchLog m n db = (.ok (), n', db') := by
  rw [M.catchLog]
  rcases m n db with ⟨r, n', db'⟩
  cases r with
  | ok a => exact ⟨n', db', rfl⟩
  | error e => exact ⟨n', db', rfl⟩

/-- The relationship phase returns normally for every fault schedule and
every database state. -/
theorem createRelationships_ok (fault : Nat → Bool) (n : Nat) (db : PDB) :
    ∃ n' db', createRelationships fault n db = (.ok (), n', db') := by
  rw [createRelationships]
  exact catchLog_always_ok _ n db

/-- C9: the relationship phase never propagates an error (it returns
normally under every fault schedule), so `initializeDatabase` succeeds
whenever its four collection-creation steps succeed: only those four
steps can make provisioning fail. -/
theorem C9_relationships_never_fail (fault : Nat → Bool) (n : Nat) (db : PDB) :
    (∃ n' db', createRelationships fault n db = (Except.ok (), n', db')) ∧
    ((createAllCollections fault n db).1.isOk = true →
       (initializeDatabase fault n db).1.isOk = true) := by
  refine ⟨createRelationships_ok fault n db, ?_⟩
  intro h
  rcases h1 : createUsersCollection fault n db with ⟨r1, n1, db1⟩
  cases r1 with
  | error e =>
    rw [createAllCollections, M.bind_fst_error _ _ n db e (by rw [h1])] at h
    simp [Except.isOk, Except.toBool] at h
  | ok c1 =>
    rcases h2 : createPostsCollection fault n1 db1 with ⟨r2, n2, db2⟩
    cases r2 with
    | error e =>
      rw [createAllCollections, M.bind_eval_ok _ _ n db c1 n1 db1 h1,
        M.bind_fst_error _ _ n1 db1 e (by rw [h2])] at h
      simp [Except.isOk, Except.toBool] at h
    | ok c2 =>
      rcases h3 : createSavesCollection fault n2 db2 with ⟨r3, n3, db3⟩
      cases r3 with
      | error e =>
        rw [createAllCollections, M.bind_eval_ok _ _ n db c1 n1 db1 h1,
          M.bind_eval_ok _ _ n1 db1 c2 n2 db2 h2,
          M.bind_fst_error _ _ n2 db2 e (by rw [h3])] at h
        simp [Except.isOk, Except.toBool] at h
      | ok c3 =>
        rcases h4 : createLikesCollection fault n3 db3 with ⟨r4, n4, db4⟩
        cases r4 with
        | error e =>
          rw [createAllCollections, M.bind_eval_ok _ _ n db c1 n1 db1 h1,
            M.bind_eval_ok _ _ n1 db1 c2 n2 db2 h2,
            M.bind_eval_ok _ _ n2 db2 c3 n3 db3 h3,
            M.bind_fst_error _ _ n3 db3 e (by rw [h4])] at h
          simp [Except.isOk, Except.toBool] at h
        | ok c4 =>
          rw [initializeDatabase, M.bind_eval_ok _ _ n db c1 n1 db1 h1,
            M.bind_eval_ok _ _ n1 db1 c2 n2 db2 h2,
            M.bind_eval_ok _ _ n2 db2 c3 n3 db3 h3,
            M.bind_eval_ok _ _ n3 db3 c4 n4 db4 h4]
          obtain ⟨n', db', hok⟩ := createRelationships_ok fault n4 db4
          rw [hok]
          rfl

/-- Witness for C9 on the empty database with the fault-free oracle. -/
theorem C9_relationships_never_fail_witness :
    (createAllCollections noFault 0 ⟨[], 0⟩).1.isOk = true ∧
    (∃ n' db', createRelationships noFault 0 ⟨[], 0⟩ = (Except.ok (), n', db')) ∧
    (initializeDatabase noFault 0 ⟨[], 0⟩).1.isOk = true :=
  ⟨by decide, (C9_relationships_never_fail noFault 0 ⟨[], 0⟩).1,
   (C9_relationships_never_fail noFault 0 ⟨[], 0⟩).2 (by decide)⟩

/-! ## Database extension: what each provisioning write preserves -/

/-- State `db'` extends `db`: every collection findable by name is still
findable with the same id, every collection id still exists, and every
attribute key present on a collection is still present. -/
structure PExt (db db' : PDB) : Prop where
  keepName : ∀ nm c, findCollByName db.colls nm = some c →
    ∃ c', findCollByName db'.colls nm = some c' ∧ c'.id = c.id
  keepEx : ∀ cid, collExists db cid = true → collExists db' cid = true
  keepAttr : ∀ cid k, hasAttrKey db cid k = true → hasAttrKey db' cid k = true

theorem PExt.refl (db : PDB) : PExt db db :=
  ⟨fun _ c h => ⟨c, h, rfl⟩, fun _ h => h, fun _ _ h => h⟩

theorem PExt.trans {a b c : PDB} (h1 : PExt a b) (h2 : PExt b c) : PExt a c := by
  refine ⟨?_, ?_, ?_⟩
  · intro nm x hx
    obtain ⟨y, hy, hyx⟩ := h1.keepName nm x hx
    obtain ⟨z, hz, hzy⟩ := h2.keepName nm y hy
    exact ⟨z, hz, hzy.trans hyx⟩
  · intro cid h
    exact h2.keepEx cid (h1.keepEx cid h)
  · intro cid k h
    exact h2.keepAttr cid k (h1.keepAttr cid k h)

theorem PExt.keepSome {a b : PDB} (h : PExt a b) (nm : String)
    (hs : (findCollByName a.colls nm).isSome = true) :
    (findCollByName b.colls nm).isSome = true := by
  rw [Option.isSome_iff_exists] at hs
  obtain ⟨c, hc⟩ := hs
  obtain ⟨c', hc', _⟩ := h.keepName nm c hc
  rw [hc']
  rfl

/-- Lookup `find?` by name commutes with a name-preserving collection map. -/
theorem find?_name_map (l : List Coll) (g : Coll → Coll)
    (hg : ∀ c, (g c).name = c.name) (nm : String) :
    (l.map g).find? (fun c => c.name == nm) = (l.find? (fun c => c.name == nm)).map g := by
  rw [List.find?_map]
  have hfun : ((fun c => c.name == nm) ∘ g) = (fun c : Coll => c.name == nm) := by
    funext c
    simp [Function.comp, hg]
  rw [hfun]

theorem hasAttrKey_some (db : PDB) (cid k : String) (h : hasAttrKey db cid k = true) :
    ∃ m, db.colls.find? (fun c => c.id == cid) = some m ∧
      m.attrs.any (fun a => a.key == k) = true := by
  rw [hasAttrKey, attrsOf] at h
  cases hf : db.colls.find? (fun c => c.id == cid) with
  | none =>
    rw [hf] at h
    simp at h
  | some m =>
    rw [hf] at h
    exact ⟨m, rfl, h⟩

/-- A `modColl` whose update preserves ids and names and only appends
attributes is a database extension. -/
theorem PExt_modColl (db : PDB) (cid : String) (f : Coll → Coll)
    (hid : ∀ c, (f c).id = c.id) (hnm : ∀ c, (f c).name = c.name)
    (hat : ∀ c, ∃ ext, (f c).attrs = c.attrs ++ ext) :
    PExt db (modColl db cid f) := by
  set g : Coll → Coll := fun c => if c.id == cid then f c else c with hgdef
  have hgid : ∀ c, (g c).id = c.id := by
    intro c
    rw [hgdef]
    dsimp only
    split
    · exact hid c
    · rfl
  have hgnm : ∀ c, (g c).name = c.name := by
    intro c
    rw [hgdef]
    dsimp only
    split
    · exact hnm c
    · rfl
  have hgat : ∀ c, ∃ ext, (g c).attrs = c.attrs ++ ext := by
    intro c
    rw [hgdef]
    dsimp only
    split
    · exact hat c
    · exact ⟨[], (List.append_nil _).symm⟩
  refine ⟨?_, ?_, ?_⟩
  · intro nm c h
    rw [findCollByName] at h
    show ∃ c', (db.colls.map g).find? (fun x : Coll => x.name == nm) = some c' ∧ c'.id = c.id
    rw [find?_name_map _ g hgnm, h]
    exact ⟨g c, rfl, hgid c⟩
  · intro cid' h
    rw [collExists_eq_isSome] at h
    show ((db.colls.map g).any (fun x : Coll => x.id == cid')) = true
    rw [List.any_map]
    have : ((fun x : Coll => x.id == cid') ∘ g) = (fun x : Coll => x.id == cid') := by
      funext x
      simp [Function.comp, hgid]
    rw [this]
    have h2 : collExists db cid' = true := by
      rw [collExists_eq_isSome]
      exact h
    exact h2
  · intro cid' k h
    obtain ⟨m, hm, hany⟩ := hasAttrKey_some db cid' k h
    rw [hasAttrKey, attrsOf]
    show (match (db.colls.map g).find? (fun x : Coll => x.id == cid') with
      | some y => y.attrs | none => []).any (fun a => a.key == k) = true
    rw [find?_map_of_id _ g hgid, hm]
    obtain ⟨ext, hext⟩ := hgat m
    simp only [Option.map_some']
    rw [hext, List.any_append, hany]
    rfl

theorem PExt_addAttr (db : PDB) (cid : String) (a : Attr) : PExt db (addAttr db cid a) :=
  PExt_modColl db cid _ (fun _ => rfl) (fun _ => rfl) (fun _ => ⟨[a], rfl⟩)

theorem PExt_addIndex (db : PDB) (cid : String) (ix : Index) : PExt db (addIndex db cid ix) :=
  PExt_modColl db cid _ (fun _ => rfl) (fun _ => rfl)
    (fun _ => ⟨[], (List.append_nil _).symm⟩)

theorem PExt_appendColl (db : PDB) (c : Coll) : PExt db (appendColl db c) := by
  refine ⟨?_, ?_, ?_⟩
  · intro nm x hx
    rw [findCollByName] at hx
    refine ⟨x, ?_, rfl⟩
    show (db.colls ++ [c]).find? (fun x : Coll => x.name == nm) = some x
    rw [List.find?_append, hx]
    rfl
  · intro cid h
    show (db.colls ++ [c]).any (fun x : Coll => x.id == cid) = true
    rw [List.any_append]
    rw [collExists] at h
    rw [h]
    rfl
  · intro cid k h
    obtain ⟨m, hm, hany⟩ := hasAttrKey_some db cid k h
    rw [hasAttrKey, attrsOf]
    show (match (db.colls ++ [c]).find? (fun x : Coll => x.id == cid) with
      | some y => y.attrs | none => []).any (fun a => a.key == k) = true
    rw [List.find?_append, hm]
    exact hany

/-- Chaining helpers: extend an extension by one more write. -/
theorem PExt.addAttr_after {a b : PDB} (h : PExt a b) (cid : String) (att : Attr) :
    PExt a (addAttr b cid att) :=
  h.trans (PExt_addAttr b cid att)

theorem PExt.addIndex_after {a b : PDB} (h : PExt a b) (cid : String) (ix : Index) :
    PExt a (addIndex b cid ix) :=
  h.trans (PExt_addIndex b cid ix)

theorem PExt.appendColl_after {a b : PDB} (h : PExt a b) (c : Coll) :
    PExt a (appendColl b c) :=
  h.trans (PExt_appendColl b c)

/-! ## Evaluating the provisioner primitives under the fault-free oracle -/

theorem listCollections_noFault (n : Nat) (db : PDB) :
    listCollections noFault n db = (.ok db.colls, n + 1, db) := rfl

theorem createCollection_noFault (nm : String) (n : Nat) (db : PDB) :
    createCollection noFault nm n db =
      (.ok (freshColl db nm), n + 1, appendColl db (freshColl db nm)) := rfl

theorem M.pure_apply {α : Type} (a : α) (n : Nat) (db : PDB) :
    (Pure.pure a : M α) n db = (.ok a, n, db) := rfl

theorem collExists_of_mem {db : PDB} {c : Coll} (h : c ∈ db.colls) :
    collExists db c.id = true := by
  rw [collExists, List.any_eq_true]
  exact ⟨c, h, by simp⟩

theorem collExists_appendColl_self (db : PDB) (c : Coll) :
    collExists (appendColl db c) c.id = true := by
  show (db.colls ++ [c]).any (fun x : Coll => x.id == c.id) = true
  rw [List.any_append]
  simp

theorem collExists_addAttr (db : PDB) (cid' : String) (a : Attr) (cid : String) :
    collExists (addAttr db cid' a) cid = collExists db cid := by
  show ((db.colls.map _).any fun x : Coll => x.id == cid) = collExists db cid
  rw [List.any_map, collExists]
  congr 1
  funext x
  simp only [Function.comp]
  split <;> rfl

theorem collExists_addIndex (db : PDB) (cid' : String) (ix : Index) (cid : String) :
    collExists (addIndex db cid' ix) cid = collExists db cid := by
  show ((db.colls.map _).any fun x : Coll => x.id == cid) = collExists db cid
  rw [List.any_map, collExists]
  congr 1
  funext x
  simp only [Function.comp]
  split <;> rfl

theorem createStringAttribute_noFault (cid akey : String) (sz : Nat) (rq : Bool)
    (df : Option String) (ar : Bool) (n : Nat) (db : PDB) (h : collExists db cid = true) :
    createStringAttribute noFault cid akey sz rq df ar n db =
      (.ok (), n + 1, addAttr db cid ⟨akey, .str sz rq df ar⟩) := by
  rw [createStringAttribute, remoteOp]
  simp [noFault, h]

theorem createEmailAttribute_noFault (cid akey : String) (rq : Bool)
    (n : Nat) (db : PDB) (h : collExists db cid = true) :
    createEmailAttribute noFault cid akey rq n db =
      (.ok (), n + 1, addAttr db cid ⟨akey, .email rq⟩) := by
  rw [createEmailAttribute, remoteOp]
  simp [noFault, h]

theorem createIndex_noFault (cid ikey itype : String) (fields : List String)
    (n : Nat) (db : PDB) (h : collExists db cid = true) :
    createIndex noFault cid ikey itype fields n db =
      (.ok (), n + 1, addIndex db cid ⟨ikey, itype, fields⟩) := by
  rw [createIndex, remoteOp]
  simp [noFault, h]

theorem listAttributes_noFault (cid : String) (n : Nat) (db : PDB)
    (h : collExists db cid = true) :
    listAttributes noFault cid n db = (.ok (attrsOf db cid), n + 1, db) := by
  rw [listAttributes, remoteOp]
  rw [collExists_eq_isSome, Option.isSome_iff_exists] at h
  obtain ⟨m, hm⟩ := h
  simp only [noFault, if_false, Bool.false_eq_true]
  rw [hm, attrsOf, hm]

theorem createRelationshipAttribute_noFault (cid rcid t akey tk od : String)
    (n : Nat) (db : PDB) (h1 : collExists db cid = true) (h2 : collExists db rcid = true) :
    createRelationshipAttribute noFault cid rcid t true akey tk od n db =
      (.ok (), n + 1,
        addAttr (addAttr db cid ⟨akey, .rel rcid t true tk od⟩) rcid
          ⟨tk, .rel cid t true akey od⟩) := by
  rw [createRelationshipAttribute, remoteOp]
  simp [noFault, h1, h2]

/-! ## Skip behaviour when a collection is already listed -/

theorem createUsersCollection_skip (n : Nat) (db : PDB) (uc : Coll)
    (h : findCollByName db.colls "users" = some uc) :
    createUsersCollection noFault n db = (.ok uc, n + 1, db) := by
  rw [createUsersCollection,
    M.bind_eval_ok _ _ n db db.colls (n + 1) db (listCollections_noFault n db), h]
  rfl

theorem createPostsCollection_skip (n : Nat) (db : PDB) (pc : Coll)
    (h : findCollByName db.colls "posts" = some pc) :
    createPostsCollection noFault n db = (.ok pc, n + 1, db) := by
  rw [createPostsCollection,
    M.bind_eval_ok _ _ n db db.colls (n + 1) db (listCollections_noFault n db), h]
  rfl

theorem createSavesCollection_skip (n : Nat) (db : PDB) (sc : Coll)
    (h : findCollByName db.colls "saves" = some sc) :
    createSavesCollection noFault n db = (.ok sc, n + 1, db) := by
  rw [createSavesCollection,
    M.bind_eval_ok _ _ n db db.colls (n + 1) db (listCollections_noFault n db), h]
  rfl

theorem createLikesCollection_skip (n : Nat) (db : PDB) (lc : Coll)
    (h : findCollByName db.colls "likes" = some lc) :
    createLikesCollection noFault n db = (.ok lc, n + 1, db) := by
  rw [createLikesCollection,
    M.bind_eval_ok _ _ n db db.colls (n + 1) db (listCollections_noFault n db), h]
  rfl

/-! ## Establishment lemmas -/

theorem M.bind_apply {α β : Type} (m : M α) (f : α → M β) (n : Nat) (db : PDB) :
    (m >>= f) n db =
      match m n db with
      | (.ok a, n', db') => f a n' db'
      | (.error e, n', db') => (.error e, n', db') := rfl

theorem M.catchLog_of_ok (m : M Unit) (n n' : Nat) (db db' : PDB)
    (h : m n db = (.ok (), n', db')) : M.catchLog m n db = (.ok (), n', db') := by
  rw [M.catchLog, h]

/-- A freshly appended collection is found by name when none with that
name was present before. -/
theorem findByName_appendColl_none (db : PDB) (c : Coll) (nm : String)
    (h : findCollByName db.colls nm = none) (hc : c.name = nm) :
    findCollByName (appendColl db c).colls nm = some c := by
  show (db.colls ++ [c]).find? (fun x : Coll => x.name == nm) = some c
  rw [findCollByName] at h
  rw [List.find?_append, h]
  simp [hc]

/-- Adding an attribute to an existing collection makes its key present
on that collection. -/
theorem hasAttrKey_addAttr_self (db : PDB) (cid : String) (a : Attr)
    (h : collExists db cid = true) :
    hasAttrKey (addAttr db cid a) cid a.key = true := by
  rw [collExists_eq_isSome, Option.isSome_iff_exists] at h
  obtain ⟨m, hm⟩ := h
  have hmid : (m.id == cid) = true := by
    have := List.find?_some hm
    simpa using this
  rw [hasAttrKey, attrsOf]
  show (match ((db.colls.map fun c : Coll =>
      if c.id == cid then { c with attrs := c.attrs ++ [a] } else c).find?
        fun x : Coll => x.id == cid) with
    | some y => y.attrs | none => []).any (fun x => x.key == a.key) = true
  rw [find?_map_of_id _ _ (fun c => by split <;> rfl), hm]
  simp only [Option.map_some']
  rw [if_pos hmid, List.any_append]
  simp

/-- The users-posts relationship block: always returns normally, only
extends the database, and afterwards the "posts" key is present on the
users collection. -/
theorem relUsersPostsBlock_spec (uc pc : Coll) (n : Nat) (db : PDB)
    (hu : collExists db uc.id = true) (hp : collExists db pc.id = true) :
    ∃ n' db', relUsersPostsBlock noFault uc pc n db = (.ok (), n', db') ∧
      PExt db db' ∧ hasAttrKey db' uc.id "posts" = true := by
  have e1 := listAttributes_noFault uc.id n db hu
  rw [relUsersPostsBlock]
  by_cases hA : ((attrsOf db uc.id).any fun a => a.key == "posts") = true
  · refine ⟨n + 1, db, ?_, PExt.refl db, hA⟩
    apply M.catchLog_of_ok
    rw [M.bind_eval_ok _ _ n db _ (n + 1) db e1, if_pos hA]
    rfl
  · have e2 := createRelationshipAttribute_noFault uc.id pc.id "manyToOne"
      "posts" "creator" "setNull" (n + 1) db hu hp
    refine ⟨n + 2,
      addAttr (addAttr db uc.id ⟨"posts", .rel pc.id "manyToOne" true "creator" "setNull"⟩)
        pc.id ⟨"creator", .rel uc.id "manyToOne" true "posts" "setNull"⟩, ?_, ?_, ?_⟩
    · apply M.catchLog_of_ok
      rw [M.bind_eval_ok _ _ n db _ (n + 1) db e1, if_neg hA, e2]
    · exact (PExt.refl db).addAttr_after _ _ |>.addAttr_after _ _
    · apply (PExt_addAttr _ _ _).keepAttr
      exact hasAttrKey_addAttr_self db uc.id _ hu

/-- A saves/likes relationship block: always returns normally, only
extends the database, and afterwards both keys are present on the owning
collection. -/
theorem relPairBlock_spec (oc t1 t2 : Coll) (k1 tk1 k2 tk2 : String) (n : Nat) (db : PDB)
    (ho : collExists db oc.id = true) (h1 : collExists db t1.id = true)
    (h2 : collExists db t2.id = true) :
    ∃ n' db', relPairBlock noFault oc t1 t2 k1 tk1 k2 tk2 n db = (.ok (), n', db') ∧
      PExt db db' ∧ hasAttrKey db' oc.id k1 = true ∧ hasAttrKey db' oc.id k2 = true := by
  have e1 := listAttributes_noFault oc.id n db ho
  rw [relPairBlock]
  by_cases hA : ((attrsOf db oc.id).any fun a => a.key == k1) = true
  · -- first link already present: step one leaves the database unchanged
    by_cases hB : ((attrsOf db oc.id).any fun a => a.key == k2) = true
    · refine ⟨n + 1, db, ?_, PExt.refl db, hA, hB⟩
      apply M.catchLog_of_ok
      rw [M.bind_eval_ok _ _ n db _ (n + 1) db e1, if_pos hA,
        M.bind_eval_ok _ _ (n + 1) db () (n + 1) db (M.pure_apply () (n + 1) db),
        if_pos hB]
      rfl
    · have e3 := createRelationshipAttribute_noFault oc.id t2.id "manyToOne"
        k2 tk2 "setNull" (n + 1) db ho h2
      refine ⟨n + 2,
        addAttr (addAttr db oc.id ⟨k2, .rel t2.id "manyToOne" true tk2 "setNull"⟩)
          t2.id ⟨tk2, .rel oc.id "manyToOne" true k2 "setNull"⟩, ?_, ?_, ?_, ?_⟩
      · apply M.catchLog_of_ok
        rw [M.bind_eval_ok _ _ n db _ (n + 1) db e1, if_pos hA,
          M.bind_eval_ok _ _ (n + 1) db () (n + 1) db (M.pure_apply () (n + 1) db),
          if_neg hB, e3]
      · exact (PExt.refl db).addAttr_after _ _ |>.addAttr_after _ _
      · exact ((PExt_addAttr _ _ _).trans (PExt_addAttr _ _ _)).keepAttr _ _ hA
      · apply (PExt_addAttr _ _ _).keepAttr
        exact hasAttrKey_addAttr_self db oc.id _ ho
  · -- create the first link, then decide the second on the stale list
    have e2 := createRelationshipAttribute_noFault oc.id t1.id "manyToOne"
      k1 tk1 "setNull" (n + 1) db ho h1
    set dbA := addAttr (addAttr db oc.id ⟨k1, .rel t1.id "manyToOne" true tk1 "setNull"⟩)
      t1.id ⟨tk1, .rel oc.id "manyToOne" true k1 "setNull"⟩ with hdbA
    have pA : PExt db dbA := (PExt.refl db).addAttr_after _ _ |>.addAttr_after _ _
    have haA : hasAttrKey dbA oc.id k1 = true := by
      rw [hdbA]
      apply (PExt_addAttr _ _ _).keepAttr
      exact hasAttrKey_addAttr_self db oc.id _ ho
    by_cases hB : ((attrsOf db oc.id).any fun a => a.key == k2) = true
    · refine ⟨n + 2, dbA, ?_, pA, haA, pA.keepAttr _ _ hB⟩
      apply M.catchLog_of_ok
      rw [M.bind_eval_ok _ _ n db _ (n + 1) db e1, if_neg hA,
        M.bind_eval_ok _ _ (n + 1) db () (n + 2) dbA e2, if_pos hB]
      rfl
    · have e3 := createRelationshipAttribute_noFault oc.id t2.id "manyToOne"
        k2 tk2 "setNull" (n + 2) dbA (pA.keepEx _ ho) (pA.keepEx _ h2)
      refine ⟨n + 3,
        addAttr (addAttr dbA oc.id ⟨k2, .rel t2.id "manyToOne" true tk2 "setNull"⟩)
          t2.id ⟨tk2, .rel oc.id "manyToOne" true k2 "setNull"⟩, ?_, ?_, ?_, ?_⟩
      · apply M.catchLog_of_ok
        rw [M.bind_eval_ok _ _ n db _ (n + 1) db e1, if_neg hA,
          M.bind_eval_ok _ _ (n + 1) db () (n + 2) dbA e2, if_neg hB, e3]
      · exact pA.addAttr_after _ _ |>.addAttr_after _ _
      · exact ((PExt_addAttr _ _ _).trans (PExt_addAttr _ _ _)).keepAttr _ _ haA
      · apply (PExt_addAttr _ _ _).keepAttr
        exact hasAttrKey_addAttr_self dbA oc.id _ (pA.keepEx _ ho)

/-! ## Postconditions of the four collection-creation steps -/

/-- Creating (or skipping) the users collection always succeeds without
faults, only extends the database, and leaves a collection named
"users" findable. -/
theorem createUsersCollection_spec (n : Nat) (db : PDB) :
    ∃ r n' db', createUsersCollection noFault n db = (.ok r, n', db') ∧
      PExt db db' ∧ (findCollByName db'.colls "users").isSome = true := by
  cases h : findCollByName db.colls "users" with
  | some uc =>
    refine ⟨uc, n + 1, db, createUsersCollection_skip n db uc h, PExt.refl db, ?_⟩
    rw [h]
    rfl
  | none =>
    rw [createUsersCollection]
    simp only [M.bind_apply, M.pure_apply, listCollections_noFault, h,
      createCollection_noFault, createStringAttribute_noFault,
      createEmailAttribute_noFault, createIndex_noFault, collExists_addAttr,
      collExists_addIndex, collExists_appendColl_self]
    refine ⟨_, _, _, rfl, ?_, ?_⟩
    · exact (PExt.refl db).appendColl_after _ |>.addAttr_after _ _ |>.addAttr_after _ _
        |>.addAttr_after _ _ |>.addAttr_after _ _ |>.addAttr_after _ _
        |>.addAttr_after _ _ |>.addAttr_after _ _ |>.addIndex_after _ _
        |>.addIndex_after _ _ |>.addIndex_after _ _
    · have hfind0 := findByName_appendColl_none db (freshColl db "users") "users" h rfl
      refine PExt.keepSome ?_ "users" (by rw [hfind0]; rfl)
      exact (PExt.refl _).addAttr_after _ _ |>.addAttr_after _ _
        |>.addAttr_after _ _ |>.addAttr_after _ _ |>.addAttr_after _ _
        |>.addAttr_after _ _ |>.addAttr_after _ _ |>.addIndex_after _ _
        |>.addIndex_after _ _ |>.addIndex_after _ _

/-- Same for the posts collection. -/
theorem createPostsCollection_spec (n : Nat) (db : PDB) :
    ∃ r n' db', createPostsCollection noFault n db = (.ok r, n', db') ∧
      PExt db db' ∧ (findCollByName db'.colls "posts").isSome = true := by
  cases h : findCollByName db.colls "posts" with
  | some pc =>
    refine ⟨pc, n + 1, db, createPostsCollection_skip n db pc h, PExt.refl db, ?_⟩
    rw [h]
    rfl
  | none =>
    rw [createPostsCollection]
    simp only [M.bind_apply, M.pure_apply, listCollections_noFault, h,
      createCollection_noFault, createStringAttribute_noFault,
      createEmailAttribute_noFault, createIndex_noFault, collExists_addAttr,
      collExists_addIndex, collExists_appendColl_self]
    refine ⟨_, _, _, rfl, ?_, ?_⟩
    · exact (PExt.refl db).appendColl_after _ |>.addAttr_after _ _ |>.addAttr_after _ _
        |>.addAttr_after _ _ |>.addAttr_after _ _ |>.addAttr_after _ _
        |>.addIndex_after _ _
    · have hfind0 := findByName_appendColl_none db (freshColl db "posts") "posts" h rfl
      refine PExt.keepSome ?_ "posts" (by rw [hfind0]; rfl)
      exact (PExt.refl _).addAttr_after _ _ |>.addAttr_after _ _ |>.addAttr_after _ _
        |>.addAttr_after _ _ |>.addAttr_after _ _ |>.addIndex_after _ _

/-- Same for the saves collection (created bare). -/
theorem createSavesCollection_spec (n : Nat) (db : PDB) :
    ∃ r n' db', createSavesCollection noFault n db = (.ok r, n', db') ∧
      PExt db db' ∧ (findCollByName db'.colls "saves").isSome = true := by
  cases h : findCollByName db.colls "saves" with
  | some sc =>
    refine ⟨sc, n + 1, db, createSavesCollection_skip n db sc h, PExt.refl db, ?_⟩
    rw [h]
    rfl
  | none =>
    rw [createSavesCollection]
    simp only [M.bind_apply, M.pure_apply, listCollections_noFault, h,
      createCollection_noFault]
    refine ⟨_, _, _, rfl, PExt_appendColl db _, ?_⟩
    rw [findByName_appendColl_none db (freshColl db "saves") "saves" h rfl]
    rfl

/-- Same for the likes collection (created bare). -/
theorem createLikesCollection_spec (n : Nat) (db : PDB) :
    ∃ r n' db', createLikesCollection noFault n db = (.ok r, n', db') ∧
      PExt db db' ∧ (findCollByName db'.colls "likes").isSome = true := by
  cases h : findCollByName db.colls "likes" with
  | some lc =>
    refine ⟨lc, n + 1, db, createLikesCollection_skip n db lc h, PExt.refl db, ?_⟩
    rw [h]
    rfl
  | none =>
    rw [createLikesCollection]
    simp only [M.bind_apply, M.pure_apply, listCollections_noFault, h,
      createCollection_noFault]
    refine ⟨_, _, _, rfl, PExt_appendColl db _, ?_⟩
    rw [findByName_appendColl_none db (freshColl db "likes") "likes" h rfl]
    rfl

/-! ## The fully provisioned state and idempotence -/

/-- A database state in which every skip-check of the provisioner
succeeds: each of the four collections is findable by name, the users
collection carries the "posts" relationship attribute, and the saves and
likes collections carry their "user" and "post" relationship
attributes. -/
def Provisioned (db : PDB) : Prop :=
  (∃ uc, findCollByName db.colls "users" = some uc ∧
     hasAttrKey db uc.id "posts" = true) ∧
  (findCollByName db.colls "posts").isSome = true ∧
  (∃ sc, findCollByName db.colls "saves" = some sc ∧
     hasAttrKey db sc.id "user" = true ∧ hasAttrKey db sc.id "post" = true) ∧
  (∃ lc, findCollByName db.colls "likes" = some lc ∧
     hasAttrKey db lc.id "user" = true ∧ hasAttrKey db lc.id "post" = true)

/-- After a fault-free relationship phase on a database where all four
collections exist, the database is provisioned. -/
theorem createRelationships_spec (n : Nat) (db : PDB)
    (hu : (findCollByName db.colls "users").isSome = true)
    (hp : (findCollByName db.colls "posts").isSome = true)
    (hs : (findCollByName db.colls "saves").isSome = true)
    (hl : (findCollByName db.colls "likes").isSome = true) :
    ∃ n' db', createRelationships noFault n db = (.ok (), n', db') ∧ Provisioned db' := by
  obtain ⟨uc, huc⟩ := Option.isSome_iff_exists.mp hu
  obtain ⟨pc, hpc⟩ := Option.isSome_iff_exists.mp hp
  obtain ⟨sc, hsc⟩ := Option.isSome_iff_exists.mp hs
  obtain ⟨lc, hlc⟩ := Option.isSome_iff_exists.mp hl
  have hexu : collExists db uc.id = true := collExists_of_mem (List.mem_of_find?_eq_some huc)
  have hexp : collExists db pc.id = true := collExists_of_mem (List.mem_of_find?_eq_some hpc)
  have hexs : collExists db sc.id = true := collExists_of_mem (List.mem_of_find?_eq_some hsc)
  have hexl : collExists db lc.id = true := collExists_of_mem (List.mem_of_find?_eq_some hlc)
  obtain ⟨n1, db1, eU, pU, aU⟩ := relUsersPostsBlock_spec uc pc (n + 1) db hexu hexp
  obtain ⟨n2, db2, eS, pS, aS1, aS2⟩ :=
    relPairBlock_spec sc uc pc "user" "saves" "post" "savedBy" n1 db1
      (pU.keepEx _ hexs) (pU.keepEx _ hexu) (pU.keepEx _ hexp)
  obtain ⟨n3, db3, eL, pL, aL1, aL2⟩ :=
    relPairBlock_spec lc uc pc "user" "likes" "post" "likedBy" n2 db2
      ((pU.trans pS).keepEx _ hexl) ((pU.trans pS).keepEx _ hexu)
      ((pU.trans pS).keepEx _ hexp)
  have pAll : PExt db db3 := pU.trans (pS.trans pL)
  refine ⟨n3, db3, ?_, ?_, ?_, ?_, ?_⟩
  · apply M.catchLog_of_ok
    simp only [M.bind_apply, M.pure_apply, listCollections_noFault,
      huc, hpc, hsc, hlc, eU, eS, eL]
  · obtain ⟨uc', hu', hid⟩ := pAll.keepName "users" uc huc
    refine ⟨uc', hu', ?_⟩
    rw [hid]
    exact (pS.trans pL).keepAttr _ _ aU
  · exact pAll.keepSome "posts" (by rw [hpc]; rfl)
  · obtain ⟨sc', hs', hid⟩ := pAll.keepName "saves" sc hsc
    refine ⟨sc', hs', ?_, ?_⟩ <;> rw [hid]
    · exact pL.keepAttr _ _ aS1
    · exact pL.keepAttr _ _ aS2
  · obtain ⟨lc', hl', hid⟩ := pAll.keepName "likes" lc hlc
    refine ⟨lc', hl', ?_, ?_⟩ <;> rw [hid]
    · exact aL1
    · exact aL2

/-- When the "posts" key is already on the users collection, the
users-posts block is read-only. -/
theorem relUsersPostsBlock_skip (uc pc : Coll) (n : Nat) (db : PDB)
    (hu : collExists db uc.id = true) (hA : hasAttrKey db uc.id "posts" = true) :
    relUsersPostsBlock noFault uc pc n db = (.ok (), n + 1, db) := by
  have hA' : ((attrsOf db uc.id).any fun a => a.key == "posts") = true := hA
  rw [relUsersPostsBlock]
  apply M.catchLog_of_ok
  rw [M.bind_eval_ok _ _ n db _ (n + 1) db (listAttributes_noFault uc.id n db hu),
    if_pos hA']
  rfl

/-- When both keys are already on the owning collection, a saves/likes
block is read-only. -/
theorem relPairBlock_skip (oc t1 t2 : Coll) (k1 tk1 k2 tk2 : String) (n : Nat) (db : PDB)
    (ho : collExists db oc.id = true) (h1 : hasAttrKey db oc.id k1 = true)
    (h2 : hasAttrKey db oc.id k2 = true) :
    relPairBlock noFault oc t1 t2 k1 tk1 k2 tk2 n db = (.ok (), n + 1, db) := by
  have h1' : ((attrsOf db oc.id).any fun a => a.key == k1) = true := h1
  have h2' : ((attrsOf db oc.id).any fun a => a.key == k2) = true := h2
  rw [relPairBlock]
  apply M.catchLog_of_ok
  rw [M.bind_eval_ok _ _ n db _ (n + 1) db (listAttributes_noFault oc.id n db ho),
    if_pos h1',
    M.bind_eval_ok _ _ (n + 1) db () (n + 1) db (M.pure_apply () (n + 1) db),
    if_pos h2']
  rfl

/-- On a provisioned database the whole relationship phase is
read-only. -/
theorem createRelationships_skip (n : Nat) (db : PDB) (h : Provisioned db) :
    createRelationships noFault n db = (.ok (), n + 4, db) := by
  obtain ⟨⟨uc, huc, hA⟩, hps, ⟨sc, hsc, hs1, hs2⟩, ⟨lc, hlc, hl1, hl2⟩⟩ := h
  obtain ⟨pc, hpc⟩ := Option.isSome_iff_exists.mp hps
  have hexu : collExists db uc.id = true := collExists_of_mem (List.mem_of_find?_eq_some huc)
  have hexs : collExists db sc.id = true := collExists_of_mem (List.mem_of_find?_eq_some hsc)
  have hexl : collExists db lc.id = true := collExists_of_mem (List.mem_of_find?_eq_some hlc)
  rw [createRelationships]
  apply M.catchLog_of_ok
  simp only [M.bind_apply, M.pure_apply, listCollections_noFault, huc, hpc, hsc, hlc,
    relUsersPostsBlock_skip uc pc (n + 1) db hexu hA,
    relPairBlock_skip sc uc pc "user" "saves" "post" "savedBy" (n + 2) db hexs hs1 hs2,
    relPairBlock_skip lc uc pc "user" "likes" "post" "likedBy" (n + 3) db hexl hl1 hl2]

/-- A fault-free provisioning run always succeeds and leaves a
provisioned database. -/
theorem initializeDatabase_spec (n : Nat) (db : PDB) :
    ∃ n' db', initializeDatabase noFault n db = (.ok (), n', db') ∧ Provisioned db' := by
  obtain ⟨r1, n1, db1, e1, p1, f1⟩ := createUsersCollection_spec n db
  obtain ⟨r2, n2, db2, e2, p2, f2⟩ := createPostsCollection_spec n1 db1
  obtain ⟨r3, n3, db3, e3, p3, f3⟩ := createSavesCollection_spec n2 db2
  obtain ⟨r4, n4, db4, e4, p4, f4⟩ := createLikesCollection_spec n3 db3
  have hu4 : (findCollByName db4.colls "users").isSome = true :=
    (p2.trans (p3.trans p4)).keepSome "users" f1
  have hp4 : (findCollByName db4.colls "posts").isSome = true :=
    (p3.trans p4).keepSome "posts" f2
  have hs4 : (findCollByName db4.colls "saves").isSome = true := p4.keepSome "saves" f3
  obtain ⟨n5, db5, e5, prov⟩ := createRelationships_spec n4 db4 hu4 hp4 hs4 f4
  refine ⟨n5, db5, ?_, prov⟩
  rw [initializeDatabase, M.bind_eval_ok _ _ n db r1 n1 db1 e1,
    M.bind_eval_ok _ _ n1 db1 r2 n2 db2 e2, M.bind_eval_ok _ _ n2 db2 r3 n3 db3 e3,
    M.bind_eval_ok _ _ n3 db3 r4 n4 db4 e4, e5]

/-- On a provisioned database, a fault-free provisioning run is entirely
read-only: every creation is skipped. -/
theorem initializeDatabase_skip (n : Nat) (db : PDB) (h : Provisioned db) :
    initializeDatabase noFault n db = (.ok (), n + 8, db) := by
  obtain ⟨⟨uc, huc, _⟩, hps, ⟨sc, hsc, _, _⟩, ⟨lc, hlc, _, _⟩⟩ := id h
  obtain ⟨pc, hpc⟩ := Option.isSome_iff_exists.mp hps
  rw [initializeDatabase,
    M.bind_eval_ok _ _ n db uc (n + 1) db (createUsersCollection_skip n db uc huc),
    M.bind_eval_ok _ _ (n + 1) db pc (n + 2) db (createPostsCollection_skip (n + 1) db pc hpc),
    M.bind_eval_ok _ _ (n + 2) db sc (n + 3) db (createSavesCollection_skip (n + 2) db sc hsc),
    M.bind_eval_ok _ _ (n + 3) db lc (n + 4) db (createLikesCollection_skip (n + 3) db lc hlc),
    createRelationships_skip (n + 4) db h]

/-- A first fault-free run leaves the database provisioned. -/
theorem provision_provisioned (db : PDB) : Provisioned (provision db) := by
  obtain ⟨n', db', e, p⟩ := initializeDatabase_spec 0 db
  rw [provision, e]
  exact p

/-- On a provisioned database a run changes nothing. -/
theorem provision_of_provisioned (db : PDB) (h : Provisioned db) : provision db = db := by
  rw [provision, initializeDatabase_skip 0 db h]

/-- C1: the Schema Provisioner is idempotent.  A second fault-free run
against the state produced by any first run leaves the database exactly
unchanged — no collection and no relationship attribute is created —
and the second run succeeds, performing only the skip checks. -/
theorem C1_provisioner_idempotent (db : PDB) :
    provision (provision db) = provision db ∧
    initializeDatabase noFault 0 (provision db) = (.ok (), 8, provision db) := by
  have hp := provision_provisioned db
  exact ⟨provision_of_provisioned _ hp, initializeDatabase_skip 0 _ hp⟩

end Instadev
